import Mathlib

/-!
Verification development for the `Computer_info` library (`cpu_info.c`).

The C sources are embedded shallowly:

* machine `int` values are modelled as `Int` (C division is `Int.tdiv`,
  which truncates toward zero like C's `/`), with explicit reduction
  modulo `2 ^ 32` where 32-bit overflow is observable;
* platform inputs (sysfs pseudo-files, registry values, CPUID register
  results, Windows relationship records) are parameters of the embedded
  functions: a file that may be missing or unreadable is an
  `Option String`;
* output parameters written through pointers become returned values; the
  mutated `CPU_DATA` record is threaded explicitly;
* `malloc`/`calloc` success is environment-determined and is modelled by
  explicit boolean allocation flags where the code checks it; array
  writes `a[i] = v` become `List.set` (writes outside the allocated
  length are undefined behaviour in C and are not modelled).
-/

/-! ## C character classification and numeric scanning

`atoi` and `sscanf`'s `%d` both skip leading white space, accept an
optional sign, and then consume a maximal run of decimal digits.
-/

/-- C `isspace` for the default locale. -/
def isSpaceC (c : Char) : Bool :=
  c = ' ' ∨ c = '\t' ∨ c = '\n' ∨ c = '\x0b' ∨ c = '\x0c' ∨ c = '\r'

/-- Value of a run of decimal digits, accumulated left to right exactly as
the C library's decimal scanners do. -/
def digitsVal (ds : List Char) : Nat :=
  ds.foldl (fun acc c => acc * 10 + (c.toNat - 48)) 0

/-- One `%d` conversion: skip white space, optional sign, then a maximal
non-empty digit run; `none` when no digit is found (conversion failure).
Returns the value together with the unconsumed remainder. -/
def scanIntC (cs : List Char) : Option (Int × List Char) :=
  let cs1 := cs.dropWhile isSpaceC
  let sign : Int := if cs1.head? = some '-' then -1 else 1
  let cs2 := if cs1.head? = some '-' ∨ cs1.head? = some '+' then cs1.tail else cs1
  let ds := cs2.takeWhile Char.isDigit
  if ds = [] then none
  else some (sign * (digitsVal ds : Int), cs2.dropWhile Char.isDigit)

/-- C `atoi`: a `%d` scan whose failure yields `0`. -/
def atoiC (s : String) : Int :=
  match scanIntC s.data with
  | some (v, _) => v
  | none => 0

/-! ## `parse_shared_cpu_list` (cpu_info.c, Linux branch)

The C walks `strsep(&p, ",")` tokens; on each token
`sscanf(tok, "%d-%d", &a, &b) == 2` appends `a, a+1, …, b`
(`for (int i = a; i <= b; ++i)`), otherwise `sscanf(tok, "%d", &a) == 1`
appends the single value `a`, otherwise the token contributes nothing.
-/

/-- The inclusive ascending range `a, a+1, …, b` produced by the C loop
`for (int i = a; i <= b; ++i)`; empty when `b < a`. -/
def rangeIncl (a b : Int) : List Int :=
  (List.range (b + 1 - a).toNat).map (fun i : Nat => a + (i : Int))

/-- Comma splitting as performed by the `strsep(&p, ",")` loop: every
maximal comma-free segment becomes one token, consecutive or trailing
commas yield empty tokens, and the empty input yields one empty token. -/
def splitOnComma (cs : List Char) : List (List Char) :=
  match cs with
  | [] => [[]]
  | ',' :: rest => [] :: splitOnComma rest
  | c :: rest =>
      match splitOnComma rest with
      | t :: ts => (c :: t) :: ts
      | [] => [[c]]

/-- Indices contributed by one comma-separated token, following the two
`sscanf` attempts of `parse_shared_cpu_list`. -/
def parseToken (t : List Char) : List Int :=
  match scanIntC t with
  | none => []
  | some (a, rest) =>
      match rest with
      | '-' :: rest2 =>
          match scanIntC rest2 with
          | some (b, _) => rangeIncl a b
          | none => [a]
      | _ => [a]

/-- `parse_shared_cpu_list`: split on commas, concatenate the tokens'
contributions in left-to-right order. -/
def parse_shared_cpu_list (s : String) : List Int :=
  ((splitOnComma s.data).map parseToken).flatten

/-! ## Linux cache size parsing (inside `populate_caches_and_freq`)

`sizeKB = atoi(buf); if (strchr(buf, 'M') || strchr(buf, 'm')) sizeKB *= 1024;`
-/

/-- KiB value of a sysfs cache `size` line. -/
def parseCacheSizeKB (s : String) : Int :=
  let sizeKB := atoiC s
  if s.data.contains 'M' ∨ s.data.contains 'm' then sizeKB * 1024 else sizeKB

/-! ## Data model (`cpu_info.c` / `computer_info.c` struct definitions) -/

/-- L2 cache descriptor. -/
structure l2cache where
  l2cache_size : Int
  shared_with_core_number : Int
deriving DecidableEq, Repr

/-- Core classification (for heterogeneous systems). -/
inductive CoreType where
  | CORE_TYPE_PERFORMANCE
  | CORE_TYPE_EFFICIENCY
  | CORE_TYPE_UNKNOWN
deriving DecidableEq, Repr

/-- One entry per physical core.  `logical_ids` is the malloc'ed index
array together with its fill; `logical_count` is the C length field,
kept separately because the C code maintains it separately. -/
structure PhysicalCoreInfo where
  id : Int
  type : CoreType
  logical_ids : List Nat
  logical_count : Nat
deriving DecidableEq, Repr

/-! ## Topology Reconstructor, Linux branch (`get_core_topology`, `#else`)

For each `cpu < L` the code reads two sysfs lines
(`topology/physical_package_id` and `topology/core_id`), each defaulting
to `0` when the file cannot be opened, and forms the 32-bit key
`(phy << 16) | (core & 0xFFFF)`.  A first pass records keys in
first-seen order (and sizes the per-core index arrays); a second pass
appends each cpu, in increasing order, to the entry holding its key.
-/

/-- The grouping key `(phy << 16) | (core & 0xFFFF)` computed on 32-bit
`int`s.  `core & 0xFFFF` is the low 16 bits of the two's-complement
representation, i.e. `core % 2^16` with a non-negative result, and the
`|` is addition because the shifted value has zero low bits; the whole
key is reduced modulo `2 ^ 32` (only key equality is ever used, so the
signed reinterpretation of the residue is irrelevant). -/
def topoKey (phy core : Int) : Int :=
  (phy * 65536 + core % 65536) % 4294967296

/-- The per-CPU topology pseudo-files; `none` models a file that is
missing or cannot be opened. -/
structure LinuxTopoFiles where
  physical_package_id : Nat → Option String
  core_id : Nat → Option String

/-- `int phy = 0; if (f) { fgets(buf, ...); phy = atoi(buf); }`. -/
def topoPhy (env : LinuxTopoFiles) (cpu : Nat) : Int :=
  match env.physical_package_id cpu with
  | some s => atoiC s
  | none => 0

/-- `int core = 0; if (f) { fgets(buf, ...); core = atoi(buf); }`. -/
def topoCore (env : LinuxTopoFiles) (cpu : Nat) : Int :=
  match env.core_id cpu with
  | some s => atoiC s
  | none => 0

/-- The key the two loops compute for a given cpu. -/
def topoKeyOf (env : LinuxTopoFiles) (cpu : Nat) : Int :=
  topoKey (topoPhy env cpu) (topoCore env cpu)

/-- First pass: the `keys[]` array in first-seen order (the linear scan
`while (idx < unique && keys[idx] != key) idx++` appends unseen keys). -/
def firstSeenKeys (env : LinuxTopoFiles) (L : Nat) : List Int :=
  (List.range L).foldl
    (fun ks cpu => if topoKeyOf env cpu ∈ ks then ks else ks ++ [topoKeyOf env cpu]) []

/-- Second pass body:
`data->cores[idx].logical_ids[data->cores[idx].logical_count++] = cpu;`
where `idx` is the unique position whose key matches (keys are distinct,
so updating every matching entry updates exactly that one). -/
def addCpuToCore (cores : List PhysicalCoreInfo) (key : Int) (cpu : Nat) :
    List PhysicalCoreInfo :=
  cores.map (fun c =>
    if c.id = key then
      { c with logical_ids := c.logical_ids ++ [cpu],
               logical_count := c.logical_count + 1 }
    else c)

/-- Linux `get_core_topology`, success path (its only failure mode is
`calloc`/`malloc` exhaustion, return 203, which does not touch the
grouping logic).  Produces the `data->cores` array; the code also sets
`data->physical_core_count = unique`, which is the length of this
list. -/
def get_core_topology_linux (env : LinuxTopoFiles) (L : Nat) :
    List PhysicalCoreInfo :=
  let init := (firstSeenKeys env L).map
    (fun k => { id := k, type := CoreType.CORE_TYPE_UNKNOWN,
                logical_ids := [], logical_count := 0 })
  (List.range L).foldl (fun cores cpu => addCpuToCore cores (topoKeyOf env cpu) cpu) init

/-! ## Topology Reconstructor, Windows branch (`get_core_topology`, `_WIN32`)

One `SYSTEM_LOGICAL_PROCESSOR_INFORMATION_EX` record per physical core,
carrying the 64-bit `KAFFINITY` mask `info->Processor.GroupMask[0].Mask`;
the record list stands for a successfully retrieved buffer (the modelled
function is the success path after the two API calls).
-/

/-- Ascending walk of bit positions 0–63 collecting the set ones
(`for (int b = 0; b < 64; ++b) if (mask & (1ULL << b)) ...`). -/
def maskBits (mask : Nat) : List Nat :=
  (List.range 64).filter (fun b => mask.testBit b)

/-- The counting loop over the same 64 positions. -/
def popcount64 (mask : Nat) : Nat :=
  (List.range 64).countP (fun b => mask.testBit b)

/-- Windows `get_core_topology`, success path: core `i` gets id `i`,
type unknown, `logical_count` from the counting loop and `logical_ids`
from the collecting loop. -/
def get_core_topology_win (masks : List Nat) : List PhysicalCoreInfo :=
  masks.enum.map (fun p =>
    { id := (p.1 : Int), type := CoreType.CORE_TYPE_UNKNOWN,
      logical_ids := maskBits p.2, logical_count := popcount64 p.2 })

/-! ## Feature Decoder (`get_supported_algorithms`, `get_cpu_vendor`)

The raw CPUID register quadruples for leaf 1, leaf 7 subleaf 0 and leaf
0x80000001 are inputs, as is the 12-character vendor string assembled by
`get_cpu_vendor`.  The C code `memset`s the flag block to zero and then
assigns each flag from a register bit, the Intel-only block only under
`is_intel` and the AMD-only block only under `is_amd`; an assignment
guarded by a vendor test is therefore `vendorTest && bit`.
-/

/-- One CPUID result: `regs[0..3]` = eax, ebx, ecx, edx, bit-tested with
`regs[i] & (1 << b)`. -/
structure Regs where
  eax : Nat
  ebx : Nat
  ecx : Nat
  edx : Nat
deriving DecidableEq, Repr

/-- Instruction-set flags, split by vendor relevance. -/
structure CPU_Algorithms where
  SSE : Bool
  SSE2 : Bool
  SSE3 : Bool
  SSSE3 : Bool
  SSE4_1 : Bool
  SSE4_2 : Bool
  AVX : Bool
  POPCNT : Bool
  PCLMULQDQ : Bool
  AES : Bool
  FMA : Bool
  F16C : Bool
  XSAVE : Bool
  OSXSAVE : Bool
  RDRAND : Bool
  RDSEED : Bool
  ADX : Bool
  MPX : Bool
  PREFETCHWT1 : Bool
  AVX2 : Bool
  BMI1 : Bool
  BMI2 : Bool
  AVX512F : Bool
  SHA : Bool
  SSE4A : Bool
  XOP : Bool
  FMA4 : Bool
  THREEDNOW_PLUS : Bool
deriving DecidableEq, Repr

/-- `get_supported_algorithms`: decode the flag block from the three
CPUID results, gating the Intel-only and AMD-only blocks by the vendor
string comparisons `strcmp(vendor, "GenuineIntel") == 0` and
`strcmp(vendor, "AuthenticAMD") == 0`. -/
def get_supported_algorithms (vendor : String) (leaf1 leaf7 ext : Regs) :
    CPU_Algorithms :=
  let is_intel := vendor = "GenuineIntel"
  let is_amd := vendor = "AuthenticAMD"
  { SSE := leaf1.edx.testBit 25
    SSE2 := leaf1.edx.testBit 26
    SSE3 := leaf1.ecx.testBit 0
    SSSE3 := leaf1.ecx.testBit 9
    SSE4_1 := leaf1.ecx.testBit 19
    SSE4_2 := leaf1.ecx.testBit 20
    AVX := leaf1.ecx.testBit 28
    POPCNT := is_intel && leaf1.ecx.testBit 23
    PCLMULQDQ := is_intel && leaf1.ecx.testBit 1
    AES := is_intel && leaf1.ecx.testBit 25
    FMA := is_intel && leaf1.ecx.testBit 12
    F16C := is_intel && leaf1.ecx.testBit 29
    XSAVE := is_intel && leaf1.ecx.testBit 26
    OSXSAVE := is_intel && leaf1.ecx.testBit 27
    RDRAND := is_intel && leaf1.ecx.testBit 30
    RDSEED := is_intel && leaf7.ebx.testBit 18
    ADX := is_intel && leaf7.ebx.testBit 19
    MPX := is_intel && leaf7.ebx.testBit 14
    PREFETCHWT1 := is_intel && leaf7.ecx.testBit 0
    AVX2 := leaf7.ebx.testBit 5
    BMI1 := leaf7.ebx.testBit 3
    BMI2 := leaf7.ebx.testBit 8
    AVX512F := leaf7.ebx.testBit 16
    SHA := leaf7.ecx.testBit 29
    SSE4A := is_amd && ext.ecx.testBit 6
    XOP := is_amd && ext.ecx.testBit 11
    FMA4 := is_amd && ext.ecx.testBit 16
    THREEDNOW_PLUS := is_amd && ext.edx.testBit 31 }

/-! ## Aggregate CPU data -/

/-- Aggregate CPU data.  Pointers to arrays become lists; `cpu_name` is
`Option` because the brand pointer is only written on a successful
allocation. -/
structure CPU_DATA where
  cpu_name : Option String
  logical_core_count : Nat
  physical_core_count : Nat
  cores : List PhysicalCoreInfo
  l1size : List Int
  l2size : List l2cache
  frequency : List Int
  l3size : Int
  algorithms : CPU_Algorithms
deriving DecidableEq, Repr

/-- An array write `a[i] = v` at a C `int` index: negative or
out-of-bounds indices are undefined behaviour in the C and are modelled
as no-ops (`List.set` ignores out-of-range positions). -/
def setAt {α : Type} (l : List α) (i : Int) (v : α) : List α :=
  if 0 ≤ i then l.set i.toNat v else l

/-! ## Cache & Frequency Attributor, Linux branch
(`populate_caches_and_freq`, `#else`) -/

/-- The sysfs inputs of the Linux attributor: per-cpu
`cpufreq/scaling_cur_freq` lines, the `stat` result for each
`cpu0/cache/indexN` directory, and that directory's `level`, `size` and
`shared_cpu_list` lines (`none` = unreadable). -/
structure LinuxCacheEnv where
  scaling_cur_freq : Nat → Option String
  cacheDir : Nat → Bool
  levelFile : Nat → Option String
  sizeFile : Nat → Option String
  sharedFile : Nat → Option String

/-- A `for (i = 0; i < L; ++i)` loop writing `a[i]`, with `f i = none`
meaning the iteration leaves `a[i]` unchanged. -/
def setLoop {α : Type} (f : Nat → Option α) (l : List α) (L : Nat) : List α :=
  (List.range L).foldl
    (fun l i =>
      match f i with
      | some v => l.set i v
      | none => l) l

/-- Body of the per-instance assignment loop, for one `c = cpus[i]`:
level 1 writes the size to `l1size[c]`, level 2 writes the size and the
list length `cpuc` to `l2size[c]`, level 3 overwrites the scalar
`l3size`. -/
def assignCacheStep (level sizeKB cpuc : Int) (d : CPU_DATA) (c : Int) : CPU_DATA :=
  if level = 1 then { d with l1size := setAt d.l1size c sizeKB }
  else if level = 2 then { d with l2size := setAt d.l2size c ⟨sizeKB, cpuc⟩ }
  else if level = 3 then { d with l3size := sizeKB }
  else d

/-- The per-instance assignment loop
(`for (int i = 0; i < cpuc; ++i) { int c = cpus[i]; ... }`). -/
def assignCacheLinux (level sizeKB : Int) (cpus : List Int) (data : CPU_DATA) :
    CPU_DATA :=
  cpus.foldl (assignCacheStep level sizeKB (cpus.length : Int)) data

/-- Processing of one existing `cpu0/cache/indexN` directory: read the
level (default 0), the size via `parseCacheSizeKB` (default 0), the
shared list (default the empty `listbuf`), parse it and assign. -/
def applyCacheIdx (env : LinuxCacheEnv) (idx : Nat) (data : CPU_DATA) : CPU_DATA :=
  let level := match env.levelFile idx with | some s => atoiC s | none => 0
  let sizeKB := match env.sizeFile idx with | some s => parseCacheSizeKB s | none => 0
  let listbuf := match env.sharedFile idx with | some s => s | none => ""
  assignCacheLinux level sizeKB (parse_shared_cpu_list listbuf) data

/-- The cache scan `for (int idx = 0; idx < L; ++idx)` with
`if (stat(dir, &st) != 0) break;`: at most `remaining` more iterations,
starting at `idx`. -/
def cacheScanFrom (env : LinuxCacheEnv) (idx remaining : Nat) (data : CPU_DATA) :
    CPU_DATA :=
  match remaining with
  | 0 => data
  | r + 1 =>
      if env.cacheDir idx then
        cacheScanFrom env (idx + 1) r (applyCacheIdx env idx data)
      else data

/-- Linux `populate_caches_and_freq`: zero the four per-logical slots and
`l3size`, read per-cpu frequencies (kHz divided by 1000, C truncating
division, missing file leaves the zero), then scan the cache-index
directories of cpu 0. -/
def populate_caches_and_freq_linux (env : LinuxCacheEnv) (data : CPU_DATA) :
    CPU_DATA :=
  let L := data.logical_core_count
  let data := { data with
    l1size := setLoop (fun _ => some 0) data.l1size L
    l2size := setLoop (fun _ => some ⟨0, 0⟩) data.l2size L
    frequency := setLoop (fun _ => some 0) data.frequency L
    l3size := 0 }
  let data := { data with
    frequency := setLoop
      (fun cpu => (env.scaling_cur_freq cpu).map (fun s => (atoiC s).tdiv 1000))
      data.frequency L }
  cacheScanFrom env 0 L data

/-! ## Cache & Frequency Attributor, Windows branch
(`populate_caches_and_freq`, `_WIN32`) -/

/-- One `RelationCache` record: `Cache.Level`, `Cache.CacheSize` (bytes)
and the 64-bit `Cache.GroupMask.Mask`.  (The walk over the returned
buffer skips records whose `Relationship` is not `RelationCache`; the
list holds the ones that pass that test.) -/
structure WinCacheRec where
  level : Int
  cacheSizeBytes : Nat
  mask : Nat
deriving DecidableEq, Repr

/-- Body of the 64-position walk for one bit `b`: skip clear bits
(`if (!(mask & (1ULL << b))) continue;`), then assign into the level's
slot for logical index `b`.  `sizeKB` and `shared` are the values the C
computes once per record before the walk. -/
def winCacheStep (r : WinCacheRec) (sizeKB shared : Int) (d : CPU_DATA) (b : Nat) :
    CPU_DATA :=
  if r.mask.testBit b then
    if r.level = 1 then { d with l1size := d.l1size.set b sizeKB }
    else if r.level = 2 then { d with l2size := d.l2size.set b ⟨sizeKB, shared⟩ }
    else if r.level = 3 then { d with l3size := sizeKB }
    else d
  else d

/-- Application of one Windows cache record: size in KiB
(`CacheSize / 1024`), sharing count by popcount of the mask, then the
64-position walk assigning into the set bits' slots (level 3 folds into
the scalar, last write wins). -/
def winCacheApply (r : WinCacheRec) (data : CPU_DATA) : CPU_DATA :=
  let sizeKB : Int := (r.cacheSizeBytes / 1024 : Nat)
  let shared : Int := (popcount64 r.mask : Nat)
  (List.range 64).foldl (winCacheStep r sizeKB shared) data

/-- Windows `populate_caches_and_freq`: zero the per-logical slots and
`l3size`, read each logical core's `~MHz` registry value (already MHz;
an unopenable key leaves the zero-initialised `freq`), then walk the
cache-relationship records. -/
def populate_caches_and_freq_win (freqReg : Nat → Option Nat)
    (recs : List WinCacheRec) (data : CPU_DATA) : CPU_DATA :=
  let L := data.logical_core_count
  let data := { data with
    l1size := setLoop (fun _ => some 0) data.l1size L
    l2size := setLoop (fun _ => some ⟨0, 0⟩) data.l2size L
    l3size := 0 }
  let data := { data with
    frequency := setLoop (fun cpu => some (((freqReg cpu).getD 0 : Nat) : Int))
      data.frequency L }
  recs.foldl (fun d r => winCacheApply r d) data

/-! ## Aggregator (`get_cpu_data`, Linux build)

`get_cpu_data` is compiled per platform; the embedded version is the
Linux build (`get_nprocs`, the `#else` branches of the two helpers).
The environment collects every platform input the call consumes plus
the success of each checked allocation.
-/

/-- The platform inputs and allocation outcomes of one `get_cpu_data`
call. -/
structure CEnv where
  brandAllocOk : Bool
  brand : String
  nprocs : Nat
  allocL1 : Bool
  allocL2 : Bool
  allocFreq : Bool
  topo : LinuxTopoFiles
  cache : LinuxCacheEnv
  vendor : String
  leaf1 : Regs
  leaf7 : Regs
  ext : Regs

/-- `get_cpu_brand`: returns 203 when the 49-byte `malloc` fails (the
output pointer is then not written), otherwise 0 with the brand string
(the byte-level concatenation of CPUID leaves 0x80000002–4 is abstracted
into `env.brand`). -/
def get_cpu_brand (env : CEnv) : Int × Option String :=
  if env.brandAllocOk then (0, some env.brand) else (203, none)

/-- `get_cpu_data` on a non-null `data` argument (the `!data` → 201 check
is outside this model, which takes `data` by value).  NB the C tests
every sub-call's return code against 200 (`if (rc != 200) return rc;`)
although the sub-calls return 0 on success; a failed `calloc` yields a
null array pointer, modelled as `[]` (inspected by no later step — it is
only reachable on the 203 return).  The topology step's own allocation
failure (203) is not modelled, so the final `get_core_topology` result
code is 0. -/
def get_cpu_data (env : CEnv) (data : CPU_DATA) : Int × CPU_DATA :=
  let brandRes := get_cpu_brand env
  let rc := brandRes.1
  let data := match brandRes.2 with
    | some n => { data with cpu_name := some n }
    | none => data
  if rc ≠ 200 then (rc, data)
  else
    let L := env.nprocs
    let data := { data with logical_core_count := L }
    let data := { data with
      l1size := if env.allocL1 then List.replicate L 0 else []
      l2size := if env.allocL2 then List.replicate L ⟨0, 0⟩ else []
      frequency := if env.allocFreq then List.replicate L 0 else []
      l3size := 0 }
    if ¬(env.allocL1 ∧ env.allocL2 ∧ env.allocFreq) then (203, data)
    else
      let data := populate_caches_and_freq_linux env.cache data
      let data := { data with
        algorithms := get_supported_algorithms env.vendor env.leaf1 env.leaf7 env.ext }
      let cores := get_core_topology_linux env.topo L
      let data := { data with physical_core_count := cores.length, cores := cores }
      let rc2 : Int := 0
      if rc2 ≠ 200 then (rc2, data) else (0, data)

/-- The zero-initialised `CPU_DATA` the demo/test harness passes in
(`CPU_DATA data = { 0 };`; the header instructs callers to zero the
record before the call). -/
def zeroCPU_DATA : CPU_DATA :=
  { cpu_name := none
    logical_core_count := 0
    physical_core_count := 0
    cores := []
    l1size := []
    l2size := []
    frequency := []
    l3size := 0
    algorithms :=
      { SSE := false, SSE2 := false, SSE3 := false, SSSE3 := false
        SSE4_1 := false, SSE4_2 := false, AVX := false, POPCNT := false
        PCLMULQDQ := false, AES := false, FMA := false, F16C := false
        XSAVE := false, OSXSAVE := false, RDRAND := false, RDSEED := false
        ADX := false, MPX := false, PREFETCHWT1 := false, AVX2 := false
        BMI1 := false, BMI2 := false, AVX512F := false, SHA := false
        SSE4A := false, XOP := false, FMA4 := false, THREEDNOW_PLUS := false } }

/-! ## Concrete sample inputs (used to instantiate the theorems) -/

/-- CPUID registers with every feature bit raised. -/
def allBitsRegs : Regs :=
  { eax := 4294967295, ebx := 4294967295, ecx := 4294967295, edx := 4294967295 }

/-- A host with no readable topology pseudo-files. -/
def noTopoFiles : LinuxTopoFiles :=
  { physical_package_id := fun _ => none, core_id := fun _ => none }

/-- A 4-logical/2-physical host: package 0, cpus 0-1 on core 0 and
cpus 2-3 on core 1. -/
def pairTopoFiles : LinuxTopoFiles :=
  { physical_package_id := fun _ => some "0"
    core_id := fun cpu => if cpu < 2 then some "0" else some "1" }

/-- A host whose second cpu reports core id 65536 (= 0 mod 2^16). -/
def aliasTopoFiles : LinuxTopoFiles :=
  { physical_package_id := fun _ => some "0"
    core_id := fun cpu => if cpu = 0 then some "0" else some "65536" }

/-- A cache/frequency environment: every cpu's scaling file reads
"2400000" kHz and no cache-index directory exists. -/
def freqOnlyCacheEnv : LinuxCacheEnv :=
  { scaling_cur_freq := fun _ => some "2400000"
    cacheDir := fun _ => false
    levelFile := fun _ => none
    sizeFile := fun _ => none
    sharedFile := fun _ => none }

/-- A one-logical-core record with its arrays allocated. -/
def oneCpuData : CPU_DATA :=
  { zeroCPU_DATA with
      logical_core_count := 1
      l1size := [0]
      l2size := [⟨0, 0⟩]
      frequency := [0] }

/-- A record with two allocated L2 slots. -/
def twoSlotData : CPU_DATA :=
  { zeroCPU_DATA with l2size := [⟨0, 0⟩, ⟨0, 0⟩] }

/-- A fully populated benign environment for a `get_cpu_data` call. -/
def sampleCEnv : CEnv :=
  { brandAllocOk := true
    brand := "Sample CPU @ 2.40GHz"
    nprocs := 4
    allocL1 := true
    allocL2 := true
    allocFreq := true
    topo := pairTopoFiles
    cache := freqOnlyCacheEnv
    vendor := "GenuineIntel"
    leaf1 := allBitsRegs
    leaf7 := allBitsRegs
    ext := allBitsRegs }

/-- The same environment reporting zero logical cores. -/
def zeroCoreCEnv : CEnv :=
  { sampleCEnv with nprocs := 0 }

/-! ## Helper lemmas: decimal scanning -/

lemma isDigit_not_space {c : Char} (h : c.isDigit = true) : isSpaceC c = false := by
  by_contra hne
  have hs : isSpaceC c = true := by
    cases hval : isSpaceC c
    · exact absurd hval hne
    · rfl
  have hp : c = ' ' ∨ c = '\t' ∨ c = '\n' ∨ c = '\x0b' ∨ c = '\x0c' ∨ c = '\r' := by
    simpa [isSpaceC] using hs
  rcases hp with rfl | rfl | rfl | rfl | rfl | rfl <;> exact absurd h (by decide)

lemma takeWhile_digit_append (ds r : List Char) (hds : ∀ c ∈ ds, c.isDigit = true)
    (hr : ∀ c ∈ r.head?, c.isDigit = false) :
    (ds ++ r).takeWhile Char.isDigit = ds ∧ (ds ++ r).dropWhile Char.isDigit = r := by
  induction ds with
  | nil =>
      cases r with
      | nil => simp
      | cons c t =>
          have hc : c.isDigit = false := hr c (by simp)
          simp [List.takeWhile_cons, List.dropWhile_cons, hc]
  | cons d t ih =>
      have hd : d.isDigit = true := hds d (by simp)
      have iht := ih (fun c hc => hds c (by simp [hc]))
      simp [List.takeWhile_cons, List.dropWhile_cons, hd, iht.1, iht.2]

lemma scanIntC_digits (ds r : List Char) (hne : ds ≠ [])
    (hds : ∀ c ∈ ds, c.isDigit = true) (hr : ∀ c ∈ r.head?, c.isDigit = false) :
    scanIntC (ds ++ r) = some ((digitsVal ds : Int), r) := by
  obtain ⟨d, t, rfl⟩ : ∃ d t, ds = d :: t := by
    cases ds with
    | nil => exact absurd rfl hne
    | cons d t => exact ⟨d, t, rfl⟩
  have hd : d.isDigit = true := hds d (by simp)
  have hsp : isSpaceC d = false := isDigit_not_space hd
  have hminus : d ≠ '-' := by
    intro h
    rw [h] at hd
    exact absurd hd (by decide)
  have hplus : d ≠ '+' := by
    intro h
    rw [h] at hd
    exact absurd hd (by decide)
  have ht := takeWhile_digit_append t r (fun c hc => hds c (by simp [hc])) hr
  simp [scanIntC, List.cons_append, List.dropWhile_cons, List.takeWhile_cons, hsp, hd,
    List.head?_cons, ht.1, ht.2, hminus, hplus]

lemma parseToken_single (ds : List Char) (hne : ds ≠ [])
    (hds : ∀ c ∈ ds, c.isDigit = true) :
    parseToken ds = [(digitsVal ds : Int)] := by
  have hscan : scanIntC ds = some ((digitsVal ds : Int), []) := by
    have := scanIntC_digits ds [] hne hds (by simp)
    simpa using this
  simp [parseToken, hscan]

lemma parseToken_range (as bs : List Char) (ha : as ≠ []) (hb : bs ≠ [])
    (hadig : ∀ c ∈ as, c.isDigit = true) (hbdig : ∀ c ∈ bs, c.isDigit = true) :
    parseToken (as ++ '-' :: bs) = rangeIncl (digitsVal as) (digitsVal bs) := by
  have hscan1 : scanIntC (as ++ '-' :: bs) = some ((digitsVal as : Int), '-' :: bs) :=
    scanIntC_digits as ('-' :: bs) ha hadig (by simp)
  have hscan2 : scanIntC bs = some ((digitsVal bs : Int), []) := by
    have := scanIntC_digits bs [] hb hbdig (by simp)
    simpa using this
  simp [parseToken, hscan1, hscan2]

lemma rangeIncl_mem (a b : Int) (hab : a ≤ b) :
    ∀ x : Int, x ∈ rangeIncl a b ↔ a ≤ x ∧ x ≤ b := by
  intro x
  unfold rangeIncl
  rw [List.mem_map]
  constructor
  · rintro ⟨i, hi, rfl⟩
    rw [List.mem_range] at hi
    have h2 : (i : Int) < ((b + 1 - a).toNat : Int) := by exact_mod_cast hi
    constructor <;> omega
  · rintro ⟨h1, h2⟩
    refine ⟨(x - a).toNat, ?_, ?_⟩
    · rw [List.mem_range]
      omega
    · omega

lemma rangeIncl_sorted (a b : Int) :
    List.Pairwise (fun x y => x < y) (rangeIncl a b) := by
  unfold rangeIncl
  rw [List.pairwise_map]
  refine (List.pairwise_lt_range _).imp ?_
  intro i j hij
  show a + (i : Int) < a + (j : Int)
  have : (i : Int) < (j : Int) := by exact_mod_cast hij
  omega

lemma parseCacheSizeKB_suffix (ds : List Char) (suf : Char) (hne : ds ≠ [])
    (hds : ∀ c ∈ ds, c.isDigit = true) (hsuf : suf.isDigit = false) :
    parseCacheSizeKB (String.mk (ds ++ [suf])) =
      if suf = 'M' ∨ suf = 'm' then (digitsVal ds : Int) * 1024
      else (digitsVal ds : Int) := by
  have hscan : scanIntC (ds ++ [suf]) = some ((digitsVal ds : Int), [suf]) := by
    refine scanIntC_digits ds [suf] hne hds ?_
    intro c hc
    simp only [List.head?_cons, Option.mem_def, Option.some.injEq] at hc
    subst hc
    exact hsuf
  have hatoi : atoiC (String.mk (ds ++ [suf])) = (digitsVal ds : Int) := by
    simp [atoiC, hscan]
  have hcont : ∀ x : Char, x.isDigit = false →
      (((String.mk (ds ++ [suf])).data.contains x = true) ↔ x = suf) := by
    intro x hx
    constructor
    · intro hc
      have hmem : x ∈ ds ++ [suf] := List.elem_iff.mp hc
      rcases List.mem_append.mp hmem with hin | hin
      · rw [hds x hin] at hx
        cases hx
      · simpa using hin
    · intro h
      subst h
      exact List.elem_iff.mpr (List.mem_append.mpr (Or.inr (by simp)))
  by_cases hM : suf = 'M'
  · subst hM
    rw [if_pos (Or.inl rfl)]
    simp [parseCacheSizeKB, hatoi, (hcont 'M' (by decide)).mpr rfl]
  · by_cases hm : suf = 'm'
    · subst hm
      rw [if_pos (Or.inr rfl)]
      simp [parseCacheSizeKB, hatoi, (hcont 'm' (by decide)).mpr rfl]
    · rw [if_neg (by tauto)]
      have h1 : 'M' ∉ ds := fun hmem => absurd (hds 'M' hmem) (by decide)
      have h2 : 'm' ∉ ds := fun hmem => absurd (hds 'm' hmem) (by decide)
      have hM2 : 'M' ≠ suf := fun h => hM h.symm
      have hm2 : 'm' ≠ suf := fun h => hm h.symm
      simp [parseCacheSizeKB, hatoi, h1, h2, hM2, hm2]

lemma tdiv1000_trunc (v : Int) (h : 0 ≤ v) :
    v.tdiv 1000 * 1000 ≤ v ∧ v < v.tdiv 1000 * 1000 + 1000 := by
  rw [Int.tdiv_eq_ediv h (by norm_num)]
  omega

/-! ## Helper lemmas: indexed write loops -/

lemma setLoop_zero {α : Type} (f : Nat → Option α) (l : List α) :
    setLoop f l 0 = l := rfl

lemma setLoop_succ {α : Type} (f : Nat → Option α) (l : List α) (L : Nat) :
    setLoop f l (L + 1) =
      match f L with
      | some v => (setLoop f l L).set L v
      | none => setLoop f l L := by
  cases hf : f L <;>
    simp [setLoop, List.range_succ, List.foldl_append, hf]

lemma setLoop_length {α : Type} (f : Nat → Option α) (l : List α) (L : Nat) :
    (setLoop f l L).length = l.length := by
  induction L with
  | zero => rfl
  | succ n ih => cases hf : f n <;> simp [setLoop_succ, hf, ih]

lemma setLoop_getD {α : Type} (f : Nat → Option α) (l : List α) (L i : Nat) (d : α)
    (hi : i < l.length) :
    (setLoop f l L).getD i d =
      if i < L then (f i).getD (l.getD i d) else l.getD i d := by
  induction L with
  | zero => simp [setLoop_zero]
  | succ n ih =>
      rw [setLoop_succ]
      cases hf : f n
      case none =>
        by_cases hin : i = n
        · subst hin
          rw [ih]
          simp [hf, Nat.lt_irrefl]
        · have hiff : (i < n + 1) ↔ (i < n) := by omega
          rw [ih]
          simp only [hiff]
      case some v =>
        by_cases hin : i = n
        · subst hin
          have hlen : i < (setLoop f l i).length := by
            rw [setLoop_length]
            exact hi
          rw [List.getD_eq_getElem?_getD, List.getElem?_set, if_pos rfl, if_pos hlen]
          simp [hf]
        · rw [List.getD_eq_getElem?_getD, List.getElem?_set,
            if_neg (fun h => hin h.symm), ← List.getD_eq_getElem?_getD, ih]
          have hiff : (i < n + 1) ↔ (i < n) := by omega
          simp only [hiff]

lemma setAt_length {α : Type} (l : List α) (i : Int) (v : α) :
    (setAt l i v).length = l.length := by
  unfold setAt
  split <;> simp

lemma foldl_setAt_getD_notMem {α : Type} (v d : α) (t : List Int) :
    ∀ (arr : List α) (c : Int), c ∉ t → 0 ≤ c →
      (t.foldl (fun a x => setAt a x v) arr).getD c.toNat d = arr.getD c.toNat d := by
  induction t with
  | nil => intro arr c _ _; rfl
  | cons x ts ih =>
      intro arr c hc h0
      have hxc : x ≠ c := fun h => hc (by simp [h])
      rw [List.foldl_cons, ih _ c (fun h => hc (List.mem_cons_of_mem _ h)) h0]
      unfold setAt
      by_cases hx0 : 0 ≤ x
      · rw [if_pos hx0]
        have hne : x.toNat ≠ c.toNat := fun h => hxc (by omega)
        rw [List.getD_eq_getElem?_getD, List.getElem?_set, if_neg hne,
          ← List.getD_eq_getElem?_getD]
      · rw [if_neg hx0]

lemma foldl_setAt_length {α : Type} (v : α) (t : List Int) :
    ∀ (arr : List α), (t.foldl (fun a x => setAt a x v) arr).length = arr.length := by
  induction t with
  | nil => intro arr; rfl
  | cons x ts ih => intro arr; rw [List.foldl_cons, ih, setAt_length]

lemma foldl_setAt_getD_mem {α : Type} (v d : α) (t : List Int) :
    ∀ (arr : List α) (c : Int), c ∈ t → 0 ≤ c → c.toNat < arr.length →
      (t.foldl (fun a x => setAt a x v) arr).getD c.toNat d = v := by
  induction t with
  | nil =>
      intro arr c hc
      cases hc
  | cons x ts ih =>
      intro arr c hc h0 hlen
      rw [List.foldl_cons]
      by_cases hmem : c ∈ ts
      · exact ih _ c hmem h0 (by rw [setAt_length]; exact hlen)
      · have hcx : c = x := by
          rcases List.mem_cons.mp hc with h | h
          · exact h
          · exact absurd h hmem
        subst hcx
        rw [foldl_setAt_getD_notMem v d ts _ c hmem h0]
        unfold setAt
        rw [if_pos h0, List.getD_eq_getElem?_getD, List.getElem?_set, if_pos rfl,
          if_pos hlen]
        rfl

lemma foldl_guardSet_length {α : Type} (p : Nat → Bool) (v : α) (t : List Nat) :
    ∀ (arr : List α),
      (t.foldl (fun a x => if p x then a.set x v else a) arr).length = arr.length := by
  induction t with
  | nil => intro arr; rfl
  | cons x ts ih =>
      intro arr
      rw [List.foldl_cons, ih]
      split <;> simp

lemma foldl_guardSet_getD_notMem {α : Type} (p : Nat → Bool) (v d : α) (t : List Nat) :
    ∀ (arr : List α) (b : Nat), b ∉ t →
      (t.foldl (fun a x => if p x then a.set x v else a) arr).getD b d =
        arr.getD b d := by
  induction t with
  | nil => intro arr b _; rfl
  | cons x ts ih =>
      intro arr b hb
      have hxb : x ≠ b := fun h => hb (by simp [h])
      rw [List.foldl_cons, ih _ b (fun h => hb (List.mem_cons_of_mem _ h))]
      split
      · rw [List.getD_eq_getElem?_getD, List.getElem?_set, if_neg hxb,
          ← List.getD_eq_getElem?_getD]
      · rfl

lemma foldl_guardSet_getD_mem {α : Type} (p : Nat → Bool) (v d : α) (t : List Nat) :
    ∀ (arr : List α) (b : Nat), t.Nodup → b ∈ t → p b = true → b < arr.length →
      (t.foldl (fun a x => if p x then a.set x v else a) arr).getD b d = v := by
  induction t with
  | nil =>
      intro arr b _ hb
      cases hb
  | cons x ts ih =>
      intro arr b hnd hb hp hlen
      rw [List.foldl_cons]
      rcases List.mem_cons.mp hb with hbx | hmem
      · subst hbx
        have hnotin : b ∉ ts := (List.nodup_cons.mp hnd).1
        rw [foldl_guardSet_getD_notMem p v d ts _ b hnotin, if_pos hp,
          List.getD_eq_getElem?_getD, List.getElem?_set, if_pos rfl, if_pos hlen]
        rfl
      · refine ih _ b (List.nodup_cons.mp hnd).2 hmem hp ?_
        split <;> simp [hlen]

/-! ## Helper lemmas: projections of the cache-assignment loops -/

lemma assignCacheStep_level2 (sizeKB cpuc : Int) (d : CPU_DATA) (c : Int) :
    assignCacheStep 2 sizeKB cpuc d c =
      { d with l2size := setAt d.l2size c ⟨sizeKB, cpuc⟩ } := by
  simp [assignCacheStep]

lemma foldl_assignStep2_l2 (sizeKB cpuc : Int) :
    ∀ (l : List Int) (d : CPU_DATA),
      (l.foldl (assignCacheStep 2 sizeKB cpuc) d).l2size =
        l.foldl (fun a x => setAt a x ⟨sizeKB, cpuc⟩) d.l2size := by
  intro l
  induction l with
  | nil => intro d; rfl
  | cons x ts ih =>
      intro d
      rw [List.foldl_cons, List.foldl_cons, ih, assignCacheStep_level2]

lemma winCacheStep_level2 (r : WinCacheRec) (hr : r.level = 2)
    (sizeKB shared : Int) (d : CPU_DATA) (b : Nat) :
    winCacheStep r sizeKB shared d b =
      if r.mask.testBit b then { d with l2size := d.l2size.set b ⟨sizeKB, shared⟩ }
      else d := by
  simp [winCacheStep, hr]

lemma foldl_winStep2_l2 (r : WinCacheRec) (hr : r.level = 2) (sizeKB shared : Int) :
    ∀ (l : List Nat) (d : CPU_DATA),
      (l.foldl (winCacheStep r sizeKB shared) d).l2size =
        l.foldl (fun a b => if r.mask.testBit b then a.set b ⟨sizeKB, shared⟩ else a)
          d.l2size := by
  intro l
  induction l with
  | nil => intro d; rfl
  | cons x ts ih =>
      intro d
      rw [List.foldl_cons, List.foldl_cons, ih, winCacheStep_level2 r hr]
      split <;> rfl

/-! ## Helper lemmas: the cache scan does not touch the frequency array -/

lemma assignCacheStep_frequency (level sizeKB cpuc : Int) (d : CPU_DATA) (c : Int) :
    (assignCacheStep level sizeKB cpuc d c).frequency = d.frequency := by
  unfold assignCacheStep
  split_ifs <;> rfl

lemma assignCacheLinux_frequency (level sizeKB : Int) (cpus : List Int) (d : CPU_DATA) :
    (assignCacheLinux level sizeKB cpus d).frequency = d.frequency := by
  unfold assignCacheLinux
  generalize (cpus.length : Int) = cpuc
  induction cpus generalizing d with
  | nil => rfl
  | cons x ts ih => rw [List.foldl_cons, ih, assignCacheStep_frequency]

lemma applyCacheIdx_frequency (env : LinuxCacheEnv) (idx : Nat) (d : CPU_DATA) :
    (applyCacheIdx env idx d).frequency = d.frequency := by
  unfold applyCacheIdx
  rw [assignCacheLinux_frequency]

lemma cacheScanFrom_frequency (env : LinuxCacheEnv) :
    ∀ (remaining idx : Nat) (d : CPU_DATA),
      (cacheScanFrom env idx remaining d).frequency = d.frequency := by
  intro remaining
  induction remaining with
  | zero => intro idx d; rfl
  | succ r ih =>
      intro idx d
      unfold cacheScanFrom
      split
      · rw [ih, applyCacheIdx_frequency]
      · rfl

/-- Net effect of `populate_caches_and_freq` (Linux) on one frequency
slot: a readable `scaling_cur_freq` line gives `atoi(buf) / 1000` with C
truncating division, an unreadable one leaves the zero written by the
zeroing loop. -/
lemma populate_linux_frequency_getD (env : LinuxCacheEnv) (data : CPU_DATA)
    (cpu : Nat) (d : Int) (hlen : data.frequency.length = data.logical_core_count)
    (hcpu : cpu < data.logical_core_count) :
    (populate_caches_and_freq_linux env data).frequency.getD cpu d =
      match env.scaling_cur_freq cpu with
      | some s => (atoiC s).tdiv 1000
      | none => 0 := by
  unfold populate_caches_and_freq_linux
  rw [cacheScanFrom_frequency]
  have h1 : cpu < data.frequency.length := by omega
  have h2 : cpu < (setLoop (fun _ => some (0 : Int)) data.frequency
      data.logical_core_count).length := by
    rw [setLoop_length]
    exact h1
  rw [setLoop_getD _ _ _ _ _ h2, if_pos hcpu, setLoop_getD _ _ _ _ _ h1, if_pos hcpu]
  cases hf : env.scaling_cur_freq cpu <;> simp [hf]

/-! ## Helper lemmas: the first topology pass (key discovery) -/

lemma foldl_addKey_mono (kf : Nat → Int) :
    ∀ (l : List Nat) (ks : List Int) (k : Int), k ∈ ks →
      k ∈ l.foldl (fun ks cpu => if kf cpu ∈ ks then ks else ks ++ [kf cpu]) ks := by
  intro l
  induction l with
  | nil => intro ks k hk; exact hk
  | cons x ts ih =>
      intro ks k hk
      rw [List.foldl_cons]
      apply ih
      split
      · exact hk
      · exact List.mem_append.mpr (Or.inl hk)

lemma foldl_addKey_complete (kf : Nat → Int) :
    ∀ (l : List Nat) (ks : List Int) (cpu : Nat), cpu ∈ l →
      kf cpu ∈ l.foldl (fun ks cpu => if kf cpu ∈ ks then ks else ks ++ [kf cpu]) ks := by
  intro l
  induction l with
  | nil => intro ks cpu hc; cases hc
  | cons x ts ih =>
      intro ks cpu hc
      rw [List.foldl_cons]
      rcases List.mem_cons.mp hc with hcx | hmem
      · subst hcx
        apply foldl_addKey_mono
        split
        case isTrue h => exact h
        case isFalse h => exact List.mem_append.mpr (Or.inr (by simp))
      · exact ih _ cpu hmem

lemma foldl_addKey_nodup (kf : Nat → Int) :
    ∀ (l : List Nat) (ks : List Int), ks.Nodup →
      (l.foldl (fun ks cpu => if kf cpu ∈ ks then ks else ks ++ [kf cpu]) ks).Nodup := by
  intro l
  induction l with
  | nil => intro ks hk; exact hk
  | cons x ts ih =>
      intro ks hk
      rw [List.foldl_cons]
      apply ih
      split
      case isTrue h => exact hk
      case isFalse h =>
        rw [List.nodup_append]
        refine ⟨hk, List.nodup_singleton _, ?_⟩
        intro a ha hb
        rw [List.mem_singleton] at hb
        subst hb
        exact h ha

lemma firstSeenKeys_nodup (env : LinuxTopoFiles) (L : Nat) :
    (firstSeenKeys env L).Nodup :=
  foldl_addKey_nodup (fun cpu => topoKeyOf env cpu) (List.range L) [] List.nodup_nil

lemma firstSeenKeys_complete (env : LinuxTopoFiles) (L : Nat) (cpu : Nat)
    (hc : cpu < L) : topoKeyOf env cpu ∈ firstSeenKeys env L :=
  foldl_addKey_complete (fun cpu => topoKeyOf env cpu) (List.range L) [] cpu
    (List.mem_range.mpr hc)

/-! ## Helper lemmas: the second topology pass (closed form) -/

lemma foldl_addCpu_closed (kf : Nat → Int) (keys : List Int) :
    ∀ (l : List Nat) (g : Int → List Nat),
      l.foldl (fun cores cpu => addCpuToCore cores (kf cpu) cpu)
        (keys.map (fun k =>
          { id := k, type := CoreType.CORE_TYPE_UNKNOWN,
            logical_ids := g k, logical_count := (g k).length })) =
      keys.map (fun k =>
        { id := k, type := CoreType.CORE_TYPE_UNKNOWN,
          logical_ids := g k ++ l.filter (fun cpu => kf cpu = k),
          logical_count := (g k ++ l.filter (fun cpu => kf cpu = k)).length }) := by
  intro l
  induction l with
  | nil =>
      intro g
      simp
  | cons x ts ih =>
      intro g
      rw [List.foldl_cons]
      have hstep :
          addCpuToCore
            (keys.map (fun k =>
              { id := k, type := CoreType.CORE_TYPE_UNKNOWN,
                logical_ids := g k, logical_count := (g k).length }))
            (kf x) x =
          keys.map (fun k =>
            { id := k, type := CoreType.CORE_TYPE_UNKNOWN,
              logical_ids := (if k = kf x then g k ++ [x] else g k),
              logical_count := (if k = kf x then g k ++ [x] else g k).length }) := by
        unfold addCpuToCore
        rw [List.map_map]
        apply List.map_congr_left
        intro k _
        by_cases hk : k = kf x
        · simp [hk]
        · simp [hk]
      rw [hstep]
      have := ih (fun k => if k = kf x then g k ++ [x] else g k)
      rw [this]
      apply List.map_congr_left
      intro k _
      by_cases hk : k = kf x
      · subst hk
        simp [List.filter_cons]
      · have hkx : ¬(kf x = k) := fun h => hk h.symm
        simp [List.filter_cons, hk, hkx]

/-- Closed form of the Linux reconstructor: one entry per first-seen
key, holding the ascending list of cpus with that key. -/
lemma get_core_topology_linux_closed (env : LinuxTopoFiles) (L : Nat) :
    get_core_topology_linux env L =
      (firstSeenKeys env L).map (fun k =>
        { id := k, type := CoreType.CORE_TYPE_UNKNOWN,
          logical_ids := (List.range L).filter (fun cpu => topoKeyOf env cpu = k),
          logical_count :=
            ((List.range L).filter (fun cpu => topoKeyOf env cpu = k)).length }) := by
  unfold get_core_topology_linux
  have h := foldl_addCpu_closed (fun cpu => topoKeyOf env cpu) (firstSeenKeys env L)
    (List.range L) (fun _ => [])
  simpa using h

lemma count_flatten_filter_range (kf : Nat → Int) (L x : Nat) :
    ∀ (keys : List Int),
      ((keys.map (fun k => (List.range L).filter (fun cpu => kf cpu = k))).flatten).count x
        = (keys.count (kf x)) * ((List.range L).count x) := by
  intro keys
  induction keys with
  | nil => simp
  | cons k ks ih =>
      simp only [List.map_cons, List.flatten_cons, List.count_append, ih,
        List.count_cons]
      by_cases hx : kf x = k
      · rw [List.count_filter (by simp [hx])]
        simp [hx]
        ring
      · have h0 : ((List.range L).filter (fun cpu => kf cpu = k)).count x = 0 := by
          apply List.count_eq_zero_of_not_mem
          intro hmem
          have := (List.mem_filter.mp hmem).2
          exact hx (by simpa using this)
        rw [h0]
        have hkx : ¬(k = kf x) := fun h => hx h.symm
        simp [hkx]

/-- The partition invariant of the Linux reconstructor: the logical
indices of all produced cores are, as a multiset, exactly
`0, …, L-1`. -/
lemma linux_union_perm (env : LinuxTopoFiles) (L : Nat) :
    (((get_core_topology_linux env L).map
        (fun c => c.logical_ids)).flatten).Perm (List.range L) := by
  rw [List.perm_iff_count]
  intro x
  rw [get_core_topology_linux_closed, List.map_map]
  have hmaps :
      ((fun c : PhysicalCoreInfo => c.logical_ids) ∘ fun k =>
        ({ id := k, type := CoreType.CORE_TYPE_UNKNOWN,
           logical_ids := (List.range L).filter (fun cpu => topoKeyOf env cpu = k),
           logical_count :=
             ((List.range L).filter (fun cpu => topoKeyOf env cpu = k)).length } :
          PhysicalCoreInfo))
      = fun k => (List.range L).filter (fun cpu => topoKeyOf env cpu = k) := rfl
  rw [hmaps, count_flatten_filter_range (fun cpu => topoKeyOf env cpu) L x]
  by_cases hx : x < L
  · rw [List.count_eq_one_of_mem (firstSeenKeys_nodup env L)
      (firstSeenKeys_complete env L x hx)]
    rw [one_mul]
  · have h0 : x ∉ List.range L := by
      rw [List.mem_range]
      omega
    rw [List.count_eq_zero_of_not_mem h0, Nat.mul_zero]

/-- Each Linux core's count field is the length of its index list. -/
lemma linux_count_eq_length (env : LinuxTopoFiles) (L : Nat) :
    ∀ c ∈ get_core_topology_linux env L, c.logical_count = c.logical_ids.length := by
  intro c hc
  rw [get_core_topology_linux_closed] at hc
  obtain ⟨k, _, rfl⟩ := List.mem_map.mp hc
  rfl

/-- When every cpu reports the same key, the first pass discovers
exactly one core. -/
lemma firstSeenKeys_const (env : LinuxTopoFiles) (k : Int)
    (hk : ∀ cpu, topoKeyOf env cpu = k) :
    ∀ L : Nat, 0 < L → firstSeenKeys env L = [k] := by
  intro L
  induction L with
  | zero => intro h; omega
  | succ n ih =>
      intro _
      unfold firstSeenKeys
      rw [List.range_succ, List.foldl_append]
      by_cases hn : 0 < n
      · have hfold : (List.range n).foldl
            (fun ks cpu => if topoKeyOf env cpu ∈ ks then ks else ks ++ [topoKeyOf env cpu])
            [] = [k] := ih hn
        rw [hfold]
        simp [hk n]
      · have hzero : n = 0 := by omega
        subst hzero
        simp [hk 0]

/-! ## Helper lemmas: Windows reconstructor -/

lemma win_map_ids (masks : List Nat) :
    (get_core_topology_win masks).map (fun c => c.logical_ids) =
      masks.map maskBits := by
  unfold get_core_topology_win
  rw [List.map_map]
  have hcomp :
      ((fun c : PhysicalCoreInfo => c.logical_ids) ∘ fun p : Nat × Nat =>
        ({ id := (p.1 : Int), type := CoreType.CORE_TYPE_UNKNOWN,
           logical_ids := maskBits p.2, logical_count := popcount64 p.2 } :
          PhysicalCoreInfo))
      = maskBits ∘ Prod.snd := rfl
  rw [hcomp, ← List.map_map, List.enum_map_snd]

lemma win_count_eq_length (masks : List Nat) :
    ∀ c ∈ get_core_topology_win masks, c.logical_count = c.logical_ids.length := by
  intro c hc
  unfold get_core_topology_win at hc
  obtain ⟨p, _, rfl⟩ := List.mem_map.mp hc
  simp [popcount64, maskBits, List.countP_eq_length_filter]

/-! ## Helper lemma: the aggregator's early return

`get_cpu_data` tests `get_cpu_brand`'s result with `if (rc != 200)`, but
`get_cpu_brand` returns 0 on success and 203 on allocation failure — it
never returns 200.  On a successful brand read the function therefore
returns 0 immediately, with only `cpu_name` written. -/
lemma get_cpu_data_early_return (env : CEnv) (data : CPU_DATA)
    (h : env.brandAllocOk = true) :
    get_cpu_data env data = (0, { data with cpu_name := some env.brand }) := by
  simp [get_cpu_data, get_cpu_brand, h]

/-! ## Claim theorems -/

/-- C1.  The claim states that every successful `get_cpu_data` call
returns a fully populated snapshot (core count read, arrays allocated to
that count, cache/frequency attribution, feature decoding, topology
last).  The code instead tests `get_cpu_brand`'s result with
`if (rc != 200)` although success is 0, so on every successful brand
read it returns 0 (the documented success code) immediately: the
returned record equals the caller's record with only `cpu_name` written,
every later step having been skipped. -/
theorem c1_success_skips_every_population_step (env : CEnv) (data : CPU_DATA)
    (h : env.brandAllocOk = true) :
    (get_cpu_data env data).1 = 0 ∧
    (get_cpu_data env data).2 = { data with cpu_name := some env.brand } := by
  rw [get_cpu_data_early_return env data h]
  exact ⟨rfl, rfl⟩

/-- Witness for C1 at a concrete benign environment. -/
theorem c1_success_skips_every_population_step_witness :
    (get_cpu_data sampleCEnv zeroCPU_DATA).1 = 0 ∧
    (get_cpu_data sampleCEnv zeroCPU_DATA).2 =
      { zeroCPU_DATA with cpu_name := some sampleCEnv.brand } :=
  c1_success_skips_every_population_step sampleCEnv zeroCPU_DATA rfl

/-- C2.  The topology reconstructor's partition invariant: on Linux the
multiset of logical indices over all produced cores is exactly
`{0, …, N-1}` (no overlaps, no gaps) for every input, and each core's
`logical_count` equals the length of its `logical_ids`; on Windows the
extracted indices are exactly the set bits of the reported masks, so the
same partition holds whenever the platform masks partition `[0, N)`, and
the count field (popcount) equals the list length unconditionally. -/
theorem c2_topology_partition_invariant :
    (∀ (env : LinuxTopoFiles) (L : Nat),
      (((get_core_topology_linux env L).map
          (fun c => c.logical_ids)).flatten).Perm (List.range L)) ∧
    (∀ (env : LinuxTopoFiles) (L : Nat) (c : PhysicalCoreInfo),
      c ∈ get_core_topology_linux env L →
        c.logical_count = c.logical_ids.length) ∧
    (∀ (masks : List Nat) (N : Nat),
      ((masks.map maskBits).flatten).Perm (List.range N) →
      (((get_core_topology_win masks).map
          (fun c => c.logical_ids)).flatten).Perm (List.range N)) ∧
    (∀ (masks : List Nat) (c : PhysicalCoreInfo),
      c ∈ get_core_topology_win masks →
        c.logical_count = c.logical_ids.length) := by
  refine ⟨linux_union_perm, ?_, ?_, ?_⟩
  · intro env L c hc
    exact linux_count_eq_length env L c hc
  · intro masks N h
    rwa [win_map_ids]
  · intro masks c hc
    exact win_count_eq_length masks c hc

/-- Witness for C2 on a 4-logical/2-physical host (both platforms). -/
theorem c2_topology_partition_invariant_witness :
    ((((get_core_topology_linux pairTopoFiles 4).map
        (fun c => c.logical_ids)).flatten).Perm (List.range 4)) ∧
    ({ id := 0, type := CoreType.CORE_TYPE_UNKNOWN, logical_ids := [0, 1],
       logical_count := 2 } : PhysicalCoreInfo).logical_count =
      ({ id := 0, type := CoreType.CORE_TYPE_UNKNOWN, logical_ids := [0, 1],
         logical_count := 2 } : PhysicalCoreInfo).logical_ids.length ∧
    ((((get_core_topology_win [3, 12]).map
        (fun c => c.logical_ids)).flatten).Perm (List.range 4)) ∧
    ({ id := 0, type := CoreType.CORE_TYPE_UNKNOWN, logical_ids := [0, 1],
       logical_count := 2 } : PhysicalCoreInfo).logical_count =
      ({ id := 0, type := CoreType.CORE_TYPE_UNKNOWN, logical_ids := [0, 1],
         logical_count := 2 } : PhysicalCoreInfo).logical_ids.length :=
  ⟨c2_topology_partition_invariant.1 pairTopoFiles 4,
   c2_topology_partition_invariant.2.1 pairTopoFiles 4 _ (by decide),
   c2_topology_partition_invariant.2.2.1 [3, 12] 4 (by decide),
   c2_topology_partition_invariant.2.2.2 [3, 12] _ (by decide)⟩

/-- C3.  Every logical core in a discovered L2 instance's sharing set is
assigned `shared_with_core_number` equal to the size of the whole
sharing set — the parsed shared-CPU list's length on Linux, the popcount
of the sharing mask on Windows — counted inclusively of the core itself,
and every member's slot receives that same value. -/
theorem c3_l2_shared_count_inclusive :
    (∀ (sizeKB : Int) (cpus : List Int) (d : CPU_DATA) (c : Int),
      c ∈ cpus → 0 ≤ c → c.toNat < d.l2size.length →
      (assignCacheLinux 2 sizeKB cpus d).l2size.getD c.toNat ⟨0, 0⟩ =
        ⟨sizeKB, (cpus.length : Int)⟩) ∧
    (∀ (r : WinCacheRec) (d : CPU_DATA) (b : Nat),
      r.level = 2 → r.mask.testBit b = true → b < 64 → b < d.l2size.length →
      (winCacheApply r d).l2size.getD b ⟨0, 0⟩ =
        ⟨((r.cacheSizeBytes / 1024 : Nat) : Int),
         ((popcount64 r.mask : Nat) : Int)⟩) := by
  constructor
  · intro sizeKB cpus d c hc h0 hlen
    unfold assignCacheLinux
    rw [foldl_assignStep2_l2]
    exact foldl_setAt_getD_mem _ _ cpus d.l2size c hc h0 hlen
  · intro r d b hr hbit hb64 hlen
    unfold winCacheApply
    rw [foldl_winStep2_l2 r hr]
    exact foldl_guardSet_getD_mem _ _ _ (List.range 64) d.l2size b
      (List.nodup_range 64) (List.mem_range.mpr hb64) hbit hlen

/-- Witness for C3: a 256 KiB L2 shared by cpus 0 and 1. -/
theorem c3_l2_shared_count_inclusive_witness :
    (assignCacheLinux 2 256 [0, 1] twoSlotData).l2size.getD (0 : Int).toNat ⟨0, 0⟩ =
      ⟨256, (([0, 1] : List Int).length : Int)⟩ ∧
    (winCacheApply { level := 2, cacheSizeBytes := 262144, mask := 3 }
        twoSlotData).l2size.getD 0 ⟨0, 0⟩ =
      ⟨((262144 / 1024 : Nat) : Int), ((popcount64 3 : Nat) : Int)⟩ :=
  ⟨c3_l2_shared_count_inclusive.1 256 [0, 1] twoSlotData 0 (by decide) (by decide)
    (by decide),
   c3_l2_shared_count_inclusive.2 { level := 2, cacheSizeBytes := 262144, mask := 3 }
    twoSlotData 0 rfl (by decide) (by decide) (by decide)⟩

/-- C4.  On Linux, unreadable topology pseudo-files default both ids to
zero; when no cpu has readable files every cpu gets the same key, so all
logical cpus collapse into a single physical core holding `0, …, L-1`,
and the reconstructor produces this as a normal (success) result — in
the C the only failure path of `get_core_topology` is allocation
exhaustion, which is independent of file readability. -/
theorem c4_unreadable_topology_defaults_and_collapses (env : LinuxTopoFiles)
    (hnone : ∀ cpu, env.physical_package_id cpu = none ∧ env.core_id cpu = none)
    (L : Nat) (hL : 0 < L) :
    (∀ cpu, topoPhy env cpu = 0 ∧ topoCore env cpu = 0) ∧
    get_core_topology_linux env L =
      [{ id := 0, type := CoreType.CORE_TYPE_UNKNOWN,
         logical_ids := List.range L, logical_count := L }] := by
  have hphy : ∀ cpu, topoPhy env cpu = 0 := fun cpu => by
    simp [topoPhy, (hnone cpu).1]
  have hcore : ∀ cpu, topoCore env cpu = 0 := fun cpu => by
    simp [topoCore, (hnone cpu).2]
  have hkey : ∀ cpu, topoKeyOf env cpu = 0 := fun cpu => by
    simp [topoKeyOf, hphy cpu, hcore cpu, topoKey]
  have hfilt : (List.range L).filter (fun cpu => topoKeyOf env cpu = 0) =
      List.range L :=
    List.filter_eq_self.mpr (fun a _ => by simp [hkey a])
  refine ⟨fun cpu => ⟨hphy cpu, hcore cpu⟩, ?_⟩
  rw [get_core_topology_linux_closed, firstSeenKeys_const env 0 hkey L hL]
  simp [hfilt]

/-- Witness for C4 on a 4-cpu host with no topology files. -/
theorem c4_unreadable_topology_defaults_and_collapses_witness :
    get_core_topology_linux noTopoFiles 4 =
      [{ id := 0, type := CoreType.CORE_TYPE_UNKNOWN,
         logical_ids := List.range 4, logical_count := 4 }] :=
  (c4_unreadable_topology_defaults_and_collapses noTopoFiles
    (fun _ => ⟨rfl, rfl⟩) 4 (by decide)).2

/-- C5.  `parse_shared_cpu_list "0-3,8" = [0,1,2,3,8]`; in general a
token that is a single digit run contributes its numeric value, a token
`a-b` (two digit runs around a dash) contributes the inclusive range
from `a` to `b`, and that range is strictly ascending and contains
exactly the integers between its endpoints; tokens contribute in
left-to-right order (visible in the concrete example, and by definition
the per-token lists are concatenated in token order). -/
theorem c5_shared_cpu_list_grammar :
    parse_shared_cpu_list "0-3,8" = [0, 1, 2, 3, 8] ∧
    (∀ ds : List Char, ds ≠ [] → (∀ c ∈ ds, c.isDigit = true) →
      parseToken ds = [(digitsVal ds : Int)]) ∧
    (∀ as bs : List Char, as ≠ [] → bs ≠ [] →
      (∀ c ∈ as, c.isDigit = true) → (∀ c ∈ bs, c.isDigit = true) →
      parseToken (as ++ '-' :: bs) = rangeIncl (digitsVal as) (digitsVal bs)) ∧
    (∀ a b : Int, a ≤ b →
      List.Pairwise (fun x y => x < y) (rangeIncl a b) ∧
      ∀ x : Int, x ∈ rangeIncl a b ↔ a ≤ x ∧ x ≤ b) := by
  refine ⟨by decide, parseToken_single, parseToken_range, ?_⟩
  intro a b hab
  exact ⟨rangeIncl_sorted a b, rangeIncl_mem a b hab⟩

/-- Witness for C5 on the tokens `8` and `0-3`. -/
theorem c5_shared_cpu_list_grammar_witness :
    parseToken ['8'] = [(digitsVal ['8'] : Int)] ∧
    parseToken (['0'] ++ '-' :: ['3']) =
      rangeIncl (digitsVal ['0']) (digitsVal ['3']) ∧
    (List.Pairwise (fun x y => x < y) (rangeIncl 0 3) ∧
      ∀ x : Int, x ∈ rangeIncl 0 3 ↔ 0 ≤ x ∧ x ≤ 3) :=
  ⟨c5_shared_cpu_list_grammar.2.1 ['8'] (by decide) (by decide),
   c5_shared_cpu_list_grammar.2.2.1 ['0'] ['3'] (by decide) (by decide)
     (by decide) (by decide),
   c5_shared_cpu_list_grammar.2.2.2 0 3 (by decide)⟩

/-- C6.  A cache size line whose digit prefix is followed by `K`/`k`
parses to the prefix itself in KiB (no branch fires; `atoi` ignores the
suffix), and a `M`/`m` suffix multiplies the prefix by 1024; in
particular `"1024K"` gives 1024 and `"32M"` gives 32768. -/
theorem c6_cache_size_unit_suffix :
    parseCacheSizeKB "1024K" = 1024 ∧
    parseCacheSizeKB "32M" = 32768 ∧
    (∀ ds : List Char, ds ≠ [] → (∀ c ∈ ds, c.isDigit = true) →
      parseCacheSizeKB (String.mk (ds ++ ['K'])) = (digitsVal ds : Int) ∧
      parseCacheSizeKB (String.mk (ds ++ ['k'])) = (digitsVal ds : Int) ∧
      parseCacheSizeKB (String.mk (ds ++ ['M'])) = (digitsVal ds : Int) * 1024 ∧
      parseCacheSizeKB (String.mk (ds ++ ['m'])) = (digitsVal ds : Int) * 1024) := by
  refine ⟨by decide, by decide, ?_⟩
  intro ds hne hds
  refine ⟨?_, ?_, ?_, ?_⟩
  · rw [parseCacheSizeKB_suffix ds 'K' hne hds (by decide), if_neg (by decide)]
  · rw [parseCacheSizeKB_suffix ds 'k' hne hds (by decide), if_neg (by decide)]
  · rw [parseCacheSizeKB_suffix ds 'M' hne hds (by decide), if_pos (by decide)]
  · rw [parseCacheSizeKB_suffix ds 'm' hne hds (by decide), if_pos (by decide)]

/-- Witness for C6 on the digit run `32`. -/
theorem c6_cache_size_unit_suffix_witness :
    parseCacheSizeKB (String.mk (['3', '2'] ++ ['K'])) =
      (digitsVal ['3', '2'] : Int) ∧
    parseCacheSizeKB (String.mk (['3', '2'] ++ ['M'])) =
      (digitsVal ['3', '2'] : Int) * 1024 :=
  ⟨(c6_cache_size_unit_suffix.2.2 ['3', '2'] (by decide) (by decide)).1,
   (c6_cache_size_unit_suffix.2.2 ['3', '2'] (by decide) (by decide)).2.2.1⟩

/-- C7.  For a logical cpu whose `scaling_cur_freq` file is readable,
the populated frequency is the file's `atoi` value divided by 1000 with
C's truncating division (`Int.tdiv`), which for non-negative values
rounds down (never up); the stated truncation bounds make
"truncating, not rounding" precise. -/
theorem c7_frequency_khz_truncating_div (env : LinuxCacheEnv) (data : CPU_DATA)
    (cpu : Nat) (s : String)
    (hlen : data.frequency.length = data.logical_core_count)
    (hcpu : cpu < data.logical_core_count)
    (hread : env.scaling_cur_freq cpu = some s) :
    (populate_caches_and_freq_linux env data).frequency.getD cpu 0 =
      (atoiC s).tdiv 1000 ∧
    (0 ≤ atoiC s →
      (atoiC s).tdiv 1000 * 1000 ≤ atoiC s ∧
      atoiC s < (atoiC s).tdiv 1000 * 1000 + 1000) := by
  constructor
  · rw [populate_linux_frequency_getD env data cpu 0 hlen hcpu]
    simp [hread]
  · exact tdiv1000_trunc (atoiC s)

/-- Witness for C7: a file containing "2400000" kHz gives 2400 MHz. -/
theorem c7_frequency_khz_truncating_div_witness :
    (populate_caches_and_freq_linux freqOnlyCacheEnv oneCpuData).frequency.getD 0 0 =
      2400 := by
  have h := c7_frequency_khz_truncating_div freqOnlyCacheEnv oneCpuData 0 "2400000"
    rfl (by decide) rfl
  rw [h.1]
  decide

/-- C8.  Vendor gating of the feature decoder: on "AuthenticAMD" every
Intel-only flag decodes to false whatever the raw register bits are, and
on "GenuineIntel" every AMD-only flag decodes to false. -/
theorem c8_vendor_gated_features (vendor : String) (leaf1 leaf7 ext : Regs) :
    (vendor = "AuthenticAMD" →
      (get_supported_algorithms vendor leaf1 leaf7 ext).POPCNT = false ∧
      (get_supported_algorithms vendor leaf1 leaf7 ext).PCLMULQDQ = false ∧
      (get_supported_algorithms vendor leaf1 leaf7 ext).AES = false ∧
      (get_supported_algorithms vendor leaf1 leaf7 ext).FMA = false ∧
      (get_supported_algorithms vendor leaf1 leaf7 ext).F16C = false ∧
      (get_supported_algorithms vendor leaf1 leaf7 ext).XSAVE = false ∧
      (get_supported_algorithms vendor leaf1 leaf7 ext).OSXSAVE = false ∧
      (get_supported_algorithms vendor leaf1 leaf7 ext).RDRAND = false ∧
      (get_supported_algorithms vendor leaf1 leaf7 ext).RDSEED = false ∧
      (get_supported_algorithms vendor leaf1 leaf7 ext).ADX = false ∧
      (get_supported_algorithms vendor leaf1 leaf7 ext).MPX = false ∧
      (get_supported_algorithms vendor leaf1 leaf7 ext).PREFETCHWT1 = false) ∧
    (vendor = "GenuineIntel" →
      (get_supported_algorithms vendor leaf1 leaf7 ext).SSE4A = false ∧
      (get_supported_algorithms vendor leaf1 leaf7 ext).XOP = false ∧
      (get_supported_algorithms vendor leaf1 leaf7 ext).FMA4 = false ∧
      (get_supported_algorithms vendor leaf1 leaf7 ext).THREEDNOW_PLUS = false) := by
  constructor
  · intro h
    subst h
    have hd : decide (("AuthenticAMD" : String) = "GenuineIntel") = false := by decide
    simp [get_supported_algorithms, hd]
  · intro h
    subst h
    have hd : decide (("GenuineIntel" : String) = "AuthenticAMD") = false := by decide
    simp [get_supported_algorithms, hd]

/-- Witness for C8 with every raw register bit set on both vendors. -/
theorem c8_vendor_gated_features_witness :
    ((get_supported_algorithms "AuthenticAMD" allBitsRegs allBitsRegs
        allBitsRegs).POPCNT = false ∧
     (get_supported_algorithms "AuthenticAMD" allBitsRegs allBitsRegs
        allBitsRegs).PCLMULQDQ = false ∧
     (get_supported_algorithms "AuthenticAMD" allBitsRegs allBitsRegs
        allBitsRegs).AES = false ∧
     (get_supported_algorithms "AuthenticAMD" allBitsRegs allBitsRegs
        allBitsRegs).FMA = false ∧
     (get_supported_algorithms "AuthenticAMD" allBitsRegs allBitsRegs
        allBitsRegs).F16C = false ∧
     (get_supported_algorithms "AuthenticAMD" allBitsRegs allBitsRegs
        allBitsRegs).XSAVE = false ∧
     (get_supported_algorithms "AuthenticAMD" allBitsRegs allBitsRegs
        allBitsRegs).OSXSAVE = false ∧
     (get_supported_algorithms "AuthenticAMD" allBitsRegs allBitsRegs
        allBitsRegs).RDRAND = false ∧
     (get_supported_algorithms "AuthenticAMD" allBitsRegs allBitsRegs
        allBitsRegs).RDSEED = false ∧
     (get_supported_algorithms "AuthenticAMD" allBitsRegs allBitsRegs
        allBitsRegs).ADX = false ∧
     (get_supported_algorithms "AuthenticAMD" allBitsRegs allBitsRegs
        allBitsRegs).MPX = false ∧
     (get_supported_algorithms "AuthenticAMD" allBitsRegs allBitsRegs
        allBitsRegs).PREFETCHWT1 = false) ∧
    ((get_supported_algorithms "GenuineIntel" allBitsRegs allBitsRegs
        allBitsRegs).SSE4A = false ∧
     (get_supported_algorithms "GenuineIntel" allBitsRegs allBitsRegs
        allBitsRegs).XOP = false ∧
     (get_supported_algorithms "GenuineIntel" allBitsRegs allBitsRegs
        allBitsRegs).FMA4 = false ∧
     (get_supported_algorithms "GenuineIntel" allBitsRegs allBitsRegs
        allBitsRegs).THREEDNOW_PLUS = false) :=
  ⟨(c8_vendor_gated_features "AuthenticAMD" allBitsRegs allBitsRegs allBitsRegs).1
     rfl,
   (c8_vendor_gated_features "GenuineIntel" allBitsRegs allBitsRegs allBitsRegs).2
     rfl⟩

/-- C9.  With the platform reporting zero logical cores and a record the
caller zero-initialised as the header instructs, `get_cpu_data` returns
the success code 0 and a snapshot whose physical-core list and
per-logical arrays are all empty — not an error.  (It does so through
the early return after the brand read, which leaves the caller's empty
arrays in place for any reported core count; the zero-core premise is
the case the claim asserts.) -/
theorem c9_zero_cores_success_empty (env : CEnv) (h0 : env.nprocs = 0)
    (hb : env.brandAllocOk = true) :
    (get_cpu_data env zeroCPU_DATA).1 = 0 ∧
    (get_cpu_data env zeroCPU_DATA).2.cores = [] ∧
    (get_cpu_data env zeroCPU_DATA).2.physical_core_count = 0 ∧
    (get_cpu_data env zeroCPU_DATA).2.l1size = [] ∧
    (get_cpu_data env zeroCPU_DATA).2.l2size = [] ∧
    (get_cpu_data env zeroCPU_DATA).2.frequency = [] ∧
    (get_cpu_data env zeroCPU_DATA).2.logical_core_count = 0 := by
  rw [get_cpu_data_early_return env zeroCPU_DATA hb]
  exact ⟨rfl, rfl, rfl, rfl, rfl, rfl, rfl⟩

/-- Witness for C9 at the concrete zero-core environment. -/
theorem c9_zero_cores_success_empty_witness :
    (get_cpu_data zeroCoreCEnv zeroCPU_DATA).1 = 0 ∧
    (get_cpu_data zeroCoreCEnv zeroCPU_DATA).2.cores = [] ∧
    (get_cpu_data zeroCoreCEnv zeroCPU_DATA).2.physical_core_count = 0 ∧
    (get_cpu_data zeroCoreCEnv zeroCPU_DATA).2.l1size = [] ∧
    (get_cpu_data zeroCoreCEnv zeroCPU_DATA).2.l2size = [] ∧
    (get_cpu_data zeroCoreCEnv zeroCPU_DATA).2.frequency = [] ∧
    (get_cpu_data zeroCoreCEnv zeroCPU_DATA).2.logical_core_count = 0 :=
  c9_zero_cores_success_empty zeroCoreCEnv rfl rfl

/-- C10.  The Linux grouping key is `(phy << 16) | (core & 0xFFFF)`, so
adding 65536 to a core id (more generally, any two core ids congruent
modulo 2^16 under the same package id) yields the same key and the cpus
merge into one physical core; concretely, cpus reporting (package 0,
core 0) and (package 0, core 65536) — distinct id pairs — produce a
single core owning both logical indices, so the pair is an injective
composite key only for core ids that fit in 16 non-negative bits. -/
theorem c10_key_collision_merges_cores :
    (∀ phy core : Int, topoKey phy (core + 65536) = topoKey phy core) ∧
    (∀ phy c1 c2 : Int, c1 % 65536 = c2 % 65536 →
      topoKey phy c1 = topoKey phy c2) ∧
    (topoCore aliasTopoFiles 0 = 0 ∧ topoCore aliasTopoFiles 1 = 65536 ∧
     topoPhy aliasTopoFiles 0 = topoPhy aliasTopoFiles 1 ∧
     get_core_topology_linux aliasTopoFiles 2 =
       [{ id := 0, type := CoreType.CORE_TYPE_UNKNOWN,
          logical_ids := [0, 1], logical_count := 2 }]) := by
  refine ⟨?_, ?_, by decide, by decide, by decide, by decide⟩
  · intro phy core
    unfold topoKey
    omega
  · intro phy c1 c2 h
    unfold topoKey
    rw [h]

/-- Witness for C10: core ids 0 and 65536 collide under package 0. -/
theorem c10_key_collision_merges_cores_witness :
    topoKey 0 0 = topoKey 0 65536 :=
  c10_key_collision_merges_cores.2.1 0 0 65536 (by decide)
